import Mathlib

/-!
# Verification of a bounded Game-of-Life engine

Shallow embedding of the simulation core of the `game-of-life` repository
(`src/lib/game.js`, `src/lib/matrix.js`, `src/gol.js`) and proofs about it.

The sparse grid `Record<number, Set<number>>` is modelled as a partial map
from column index to the list of row indices in that column's `Set`
(insertion-ordered, duplicate-free, as a JS `Set` is).  JS numbers used as
coordinates are modelled as `Int`.  A JS function that can `throw` is
modelled with `Except String`.
-/

namespace GOL

/-- A JS `Set<number>`: insertion-ordered list without duplicates. -/
abbrev YSet := List Int

/-- `Set.prototype.add`: appends the element if it is not present. -/
def setAdd (s : YSet) (y : Int) : YSet :=
  if s.contains y then s else s ++ [y]

/-- `Set.prototype.delete`: removes the element. -/
def setDel (s : YSet) (y : Int) : YSet :=
  s.filter (fun z => z ≠ y)

/-- `Record<number, Set<number>>`: a partial map from x to the set of
live y values of that column (`none` = key absent). -/
def SparseMatrix := Int → Option YSet

/-- The empty record `{}` (used by `Game`'s constructor and `clear`). -/
def emptyMatrix : SparseMatrix := fun _ => none

/-- `isAlive(living, x, y)` / `Matrix.has`: `!!living[x]?.has(y)`. -/
def isAlive (living : SparseMatrix) (x y : Int) : Bool :=
  match living x with
  | none => false
  | some s => s.contains y

/-- `living[x] = s` (store a set under key `x`). -/
def storeAt (living : SparseMatrix) (x : Int) (s : Option YSet) : SparseMatrix :=
  fun x2 => if x2 = x then s else living x2

/-- The mutation body of `setAlive` in `src/lib/game.js` (identical to
`Matrix.set` in `src/lib/matrix.js`): on kill, delete `y` from the column's
set, keeping the set even if it became empty; on revive, create the
column's set when missing, then add `y`. -/
def matrixSet (m : SparseMatrix) (x y : Int) (v : Bool) : SparseMatrix :=
  if !v && isAlive m x y then
    storeAt m x ((m x).map (fun s => setDel s y))
  else if v then
    match m x with
    | none => storeAt m x (some (setAdd [] y))
    | some s => storeAt m x (some (setAdd s y))
  else m

/-- The mutation body of `setAlive` in `src/gol.js`: same as `matrixSet`,
except that after a deletion leaving `world.living[x].size === 0` the key
`x` is removed from the record. -/
def golMatrixSet (m : SparseMatrix) (x y : Int) (v : Bool) : SparseMatrix :=
  if !v && isAlive m x y then
    let m2 := storeAt m x ((m x).map (fun s => setDel s y))
    match m2 x with
    | some s => if s.length = 0 then storeAt m2 x none else m2
    | none => m2
  else if v then
    match m x with
    | none => storeAt m x (some (setAdd [] y))
    | some s => storeAt m x (some (setAdd s y))
  else m

/-- `getNeighbors(x, y, width, height)` from `src/lib/game.js` (the same
function appears verbatim in `src/gol.js`): empty for an out-of-bounds
cell, otherwise the guarded compass-order pushes N, NE, E, SE, S, SW, W,
NW. -/
def getNeighbors (x y width height : Int) : List (Int × Int) :=
  if x < 0 ∨ y < 0 ∨ x ≥ width ∨ y ≥ height then
    []
  else
    (if y - 1 ≥ 0 then [(x, y - 1)] else []) ++
    (if x + 1 < width ∧ y - 1 ≥ 0 then [(x + 1, y - 1)] else []) ++
    (if x + 1 < width then [(x + 1, y)] else []) ++
    (if x + 1 < width ∧ y + 1 < height then [(x + 1, y + 1)] else []) ++
    (if y + 1 < height then [(x, y + 1)] else []) ++
    (if x - 1 ≥ 0 ∧ y + 1 < height then [(x - 1, y + 1)] else []) ++
    (if x - 1 ≥ 0 then [(x - 1, y)] else []) ++
    (if x - 1 ≥ 0 ∧ y - 1 ≥ 0 then [(x - 1, y - 1)] else [])

/-- The live-neighbor count computed inside `willLive`:
`getNeighbors(x, y, width, height).filter(([x, y]) => isAlive(living, x, y)).length`. -/
def liveNeighborCount (width height : Int) (living : SparseMatrix) (x y : Int) : Nat :=
  ((getNeighbors x y width height).filter (fun p => isAlive living p.1 p.2)).length

/-- `willLive({width, height, living}, x, y)` from `src/lib/game.js`. -/
def willLive (width height : Int) (living : SparseMatrix) (x y : Int) : Bool :=
  if isAlive living x y then
    liveNeighborCount width height living x y == 2 ||
      liveNeighborCount width height living x y == 3
  else
    liveNeighborCount width height living x y == 3

/-- `v < mx` where `mx` is the optional maximum (`none` models the default
`Infinity`, below which every number lies). -/
def ltMax (v : Int) (mx : Option Int) : Bool :=
  match mx with
  | none => true
  | some m => v < m

/-- `setAlive(living, x, y, alive, mx, my)` from `src/lib/game.js`: bounds
checks (throw modelled as `Except.error`), then the in-place mutation
`matrixSet`.  The checks precede every mutation statement in the source,
so on the error path the grid value is untouched. -/
def setAlive (living : SparseMatrix) (x y : Int) (alive : Bool)
    (mx my : Option Int) : Except String SparseMatrix :=
  if x < 0 ∨ ltMax x mx = false then
    .error "x is out of bounds for the width"
  else if y < 0 ∨ ltMax y my = false then
    .error "y is out of bounds for the height"
  else
    .ok (matrixSet living x y alive)

/-- `setAlive(world, x, y, alive)` from `src/gol.js`: bounds checks against
the world's width and height, then the gol-variant mutation that prunes an
emptied column. -/
def golSetAlive (living : SparseMatrix) (x y : Int) (alive : Bool)
    (width height : Int) : Except String SparseMatrix :=
  if x < 0 ∨ x ≥ width then
    .error "x is out of bounds for the width"
  else if y < 0 ∨ y ≥ height then
    .error "y is out of bounds for the height"
  else
    .ok (golMatrixSet living x y alive)

/-- The state of the `living` object after a `setAlive` call, whether it
returned or threw: the bounds checks in the source throw before any
mutation statement runs, so a throwing call leaves the object as it was. -/
def setAliveState (living : SparseMatrix) (x y : Int) (alive : Bool)
    (mx my : Option Int) : SparseMatrix :=
  match setAlive living x y alive mx my with
  | .ok m => m
  | .error _ => living

/-- `pattern.forEach(([x, y]) => setAlive(living, x, y, true, mx, my))`:
cells are applied one at a time, in list order; a throw stops the loop and
every earlier cell's effect stays in the grid.  Returns the error (if any)
and the final grid state. -/
def applyCells (living : SparseMatrix) (cells : List (Int × Int))
    (mx my : Option Int) : Option String × SparseMatrix :=
  match cells with
  | [] => (none, living)
  | p :: rest =>
    match setAlive living p.1 p.2 true mx my with
    | .ok m => applyCells m rest mx my
    | .error e => (some e, living)

/-- The `Game` class of `src/lib/game.js`: fixed width and height plus the
private sparse matrix of living cells. -/
structure Game where
  width : Int
  height : Int
  living : SparseMatrix

/-- `new Game(width, height)`: stores the dimensions and calls `clear()`,
so the grid starts empty. -/
def Game.create (width height : Int) : Game :=
  { width := width, height := height, living := emptyMatrix }

/-- `Game.prototype.clear()`: replaces the living matrix with `{}`. -/
def Game.clear (g : Game) : Game :=
  { g with living := emptyMatrix }

/-- `Game.prototype.applyPattern(pattern, offsetX, offsetY)`: translate the
pattern only when either offset is positive, then set each cell alive with
`mx = width`, `my = height`.  Returns the error (if any) and the game with
its (possibly partially) updated grid. -/
def Game.applyPattern (g : Game) (pattern : List (Int × Int))
    (offsetX offsetY : Int) : Option String × Game :=
  let pat := if offsetX > 0 ∨ offsetY > 0 then
      pattern.map (fun p => (p.1 + offsetX, p.2 + offsetY))
    else pattern
  let r := applyCells g.living pat (some g.width) (some g.height)
  (r.1, { g with living := r.2 })

/-- The coordinates visited by `tick`'s nested loops
`for (x = 0; x < width; x++) for (y = 0; y < height; y++)`, in visit
order. -/
def coordsList (width height : Int) : List (Int × Int) :=
  (List.range width.toNat).flatMap fun x =>
    (List.range height.toNat).map fun y => (Int.ofNat x, Int.ofNat y)

/-- `Game.prototype.tick()`: sweep the full rectangle, writing
`willLive(this, x, y)` for each cell into a fresh matrix `next` via
`setAlive(next, x, y, ·, width, height)`; a throw would propagate
(modelled by `Except`).  After the sweep, `next` replaces the game's
matrix and is returned.  Yields the updated game and the returned grid. -/
def Game.tick (g : Game) : Except String (Game × SparseMatrix) :=
  (((coordsList g.width g.height).foldlM
      (fun next p =>
        setAlive next p.1 p.2 (willLive g.width g.height g.living p.1 p.2)
          (some g.width) (some g.height))
      emptyMatrix)).map
    fun next => ({ g with living := next }, next)

/-! ## The textbook B3/S23 step, written from the spec's words

These definitions follow the specification's description of the standard
Game of Life (Moore neighborhood, birth on 3, survival on 2 or 3, bounded
rectangle, no wraparound); they are the comparison point for the
refinement claim about `tick`, deliberately not derived from the source. -/

/-- The 8 compass neighbors of `(x, y)` (same compass order the spec
names: N, NE, E, SE, S, SW, W, NW). -/
def stdNeighborhood (x y : Int) : List (Int × Int) :=
  [(x, y - 1), (x + 1, y - 1), (x + 1, y), (x + 1, y + 1),
   (x, y + 1), (x - 1, y + 1), (x - 1, y), (x - 1, y - 1)]

/-- Membership of a coordinate in the bounded rectangle
`[0, w) × [0, h)`. -/
def inBounds (w h : Int) (p : Int × Int) : Bool :=
  0 ≤ p.1 && p.1 < w && 0 ≤ p.2 && p.2 < h

/-- Standard live-neighbor count on the bounded rectangle: how many of the
8 compass neighbors are in bounds and alive. -/
def stdLiveNeighbors (w h : Int) (alive : Int → Int → Bool) (x y : Int) : Nat :=
  ((stdNeighborhood x y).filter (fun p => inBounds w h p && alive p.1 p.2)).length

/-- Standard B3/S23 transition for one cell of the bounded rectangle. -/
def stdStep (w h : Int) (alive : Int → Int → Bool) (x y : Int) : Bool :=
  if alive x y then
    stdLiveNeighbors w h alive x y == 2 || stdLiveNeighbors w h alive x y == 3
  else
    stdLiveNeighbors w h alive x y == 3

/-! ## Pattern parsing

`parsePattern` works on a JS string; strings are modelled as `List Char`
so that everything evaluates by kernel reduction. -/

/-- `patternString.split("\n")`: JS `String.prototype.split` on a one-char
separator ("" splits to [""], a trailing separator yields a trailing empty
piece). -/
def splitLines : List Char → List (List Char)
  | [] => [[]]
  | c :: rest =>
    match splitLines rest with
    | [] => [[]]
    | line :: lines =>
      if c = '\n' then [] :: line :: lines else (c :: line) :: lines

/-- `row.trim()`: strip leading and trailing whitespace. -/
def jsTrim (row : List Char) : List Char :=
  ((row.dropWhile Char.isWhitespace).reverse.dropWhile Char.isWhitespace).reverse

/-- The retained rows of `parsePattern`:
`patternString.split("\n").filter((row) => row.trim().length > 0)`. -/
def patternRows (patternString : List Char) : List (List Char) :=
  (splitLines patternString).filter (fun row => (jsTrim row).length > 0)

/-- `parsePattern(patternString)` from `src/lib/game.js` (identical in
`src/gol.js`): over the retained rows, emit `(x, y)` for every character
equal to `'O'`, `y` being the row's index among retained rows and `x` the
character's column index. -/
def parsePattern (patternString : List Char) : List (Int × Int) :=
  (patternRows patternString).enum.flatMap fun yrow =>
    yrow.2.enum.filterMap fun xc =>
      if xc.2 = 'O' then some ((xc.1 : Int), (yrow.1 : Int)) else none

/-! ## Basic facts about the sparse grid -/

theorem isAlive_eq_none (m : SparseMatrix) (x y : Int) (h : m x = none) :
    isAlive m x y = false := by
  unfold isAlive; rw [h]

theorem isAlive_eq_some (m : SparseMatrix) (x y : Int) (s : YSet) (h : m x = some s) :
    isAlive m x y = s.contains y := by
  unfold isAlive; rw [h]

theorem isAlive_storeAt (m : SparseMatrix) (x : Int) (s : Option YSet) (a b : Int) :
    isAlive (storeAt m x s) a b =
      if a = x then (match s with | none => false | some l => l.contains b)
      else isAlive m a b := by
  unfold isAlive storeAt
  by_cases h : a = x <;> simp [h]

theorem mem_setAdd (s : YSet) (y b : Int) : b ∈ setAdd s y ↔ b ∈ s ∨ b = y := by
  unfold setAdd
  split_ifs with h <;> by_cases hb : b = y <;> simp_all

theorem mem_setDel (s : YSet) (y b : Int) : b ∈ setDel s y ↔ b ∈ s ∧ b ≠ y := by
  unfold setDel
  by_cases hb : b = y <;> simp_all

theorem isAlive_matrixSet (m : SparseMatrix) (x y : Int) (v : Bool) (a b : Int) :
    isAlive (matrixSet m x y v) a b =
      if a = x ∧ b = y then v else isAlive m a b := by
  unfold matrixSet
  by_cases hv : v
  · subst hv
    simp only [Bool.not_true, Bool.false_and, Bool.false_eq_true, if_false, if_true]
    rcases hm : m x with _ | s <;>
    · rw [isAlive_storeAt]
      by_cases ha : a = x <;> by_cases hb : b = y <;>
        simp_all [mem_setAdd, isAlive, hm]
  · simp only [Bool.not_eq_true] at hv; subst hv
    simp only [Bool.not_false, Bool.true_and]
    by_cases hal : isAlive m x y
    · simp only [hal, if_true]
      rw [isAlive_storeAt]
      rcases hm : m x with _ | s
      · rw [isAlive_eq_none m x y hm] at hal; exact absurd hal (by simp)
      · simp only [hm, Option.map_some']
        rw [isAlive_eq_some m x y s hm] at hal
        by_cases ha : a = x <;> by_cases hb : b = y <;>
          simp_all [mem_setDel, isAlive, hm]
    · simp only [hal, if_false, Bool.false_eq_true]
      by_cases ha : a = x <;> by_cases hb : b = y <;> simp_all

theorem isAlive_golMatrixSet (m : SparseMatrix) (x y : Int) (v : Bool) (a b : Int) :
    isAlive (golMatrixSet m x y v) a b =
      if a = x ∧ b = y then v else isAlive m a b := by
  unfold golMatrixSet
  by_cases hv : v
  · subst hv
    simp only [Bool.not_true, Bool.false_and, Bool.false_eq_true, if_false, if_true]
    rcases hm : m x with _ | s <;>
    · rw [isAlive_storeAt]
      by_cases ha : a = x <;> by_cases hb : b = y <;>
        simp_all [mem_setAdd, isAlive, hm]
  · simp only [Bool.not_eq_true] at hv; subst hv
    simp only [Bool.not_false, Bool.true_and]
    by_cases hal : isAlive m x y
    · simp only [hal, if_true]
      rcases hm : m x with _ | s
      · rw [isAlive_eq_none m x y hm] at hal; exact absurd hal (by simp)
      · rw [isAlive_eq_some m x y s hm] at hal
        have hst : storeAt m x (Option.map (fun s => setDel s y) (some s)) x
            = some (setDel s y) := by
          unfold storeAt; simp
        rw [hst]
        dsimp only
        by_cases hlen : (setDel s y).length = 0
        · rw [if_pos hlen]
          have hdel : setDel s y = [] := List.length_eq_zero.mp hlen
          rw [isAlive_storeAt]
          by_cases ha : a = x
          · subst ha
            simp only [if_pos rfl]
            by_cases hb : b = y
            · simp [hb]
            · have hbs : b ∉ s := by
                intro hbs
                have : b ∈ setDel s y := (mem_setDel s y b).mpr ⟨hbs, hb⟩
                simp [hdel] at this
              simp [hb, isAlive_eq_some m a b s hm, hbs]
          · rw [isAlive_storeAt]
            simp [ha]
        · rw [if_neg hlen]
          rw [isAlive_storeAt]
          by_cases ha : a = x <;> by_cases hb : b = y <;>
            simp_all [mem_setDel, isAlive, hm]
    · simp only [hal, if_false, Bool.false_eq_true]
      by_cases ha : a = x <;> by_cases hb : b = y <;> simp_all

/-! ## The code's neighborhood agrees with the textbook one -/

theorem getNeighbors_eq_filter (x y w h : Int)
    (hx0 : 0 ≤ x) (hxw : x < w) (hy0 : 0 ≤ y) (hyh : y < h) :
    getNeighbors x y w h = (stdNeighborhood x y).filter (inBounds w h) := by
  have n1 : ¬ x < 0 := by omega
  have n2 : ¬ y < 0 := by omega
  have n3 : ¬ x ≥ w := by omega
  have n4 : ¬ y ≥ h := by omega
  have d1 : y - 1 < h := by omega
  have d2 : 0 ≤ x + 1 := by omega
  have d3 : 0 ≤ y + 1 := by omega
  have d4 : x - 1 < w := by omega
  by_cases hN : 0 ≤ y - 1 <;> by_cases hE : x + 1 < w <;>
    by_cases hS : y + 1 < h <;> by_cases hW : 0 ≤ x - 1 <;>
    simp [getNeighbors, stdNeighborhood, inBounds, ge_iff_le, List.filter,
      n1, n2, n3, n4, d1, d2, d3, d4, hx0, hxw, hy0, hyh, hN, hE, hS, hW]

theorem liveNeighborCount_eq_std (w h : Int) (living : SparseMatrix) (x y : Int)
    (hx0 : 0 ≤ x) (hxw : x < w) (hy0 : 0 ≤ y) (hyh : y < h) :
    liveNeighborCount w h living x y =
      stdLiveNeighbors w h (fun a b => isAlive living a b) x y := by
  unfold liveNeighborCount stdLiveNeighbors
  rw [getNeighbors_eq_filter x y w h hx0 hxw hy0 hyh, List.filter_filter]
  congr 1
  apply List.filter_congr
  intro p _
  exact Bool.and_comm _ _

theorem willLive_eq_stdStep (w h : Int) (living : SparseMatrix) (x y : Int)
    (hx0 : 0 ≤ x) (hxw : x < w) (hy0 : 0 ≤ y) (hyh : y < h) :
    willLive w h living x y = stdStep w h (fun a b => isAlive living a b) x y := by
  unfold willLive stdStep
  rw [liveNeighborCount_eq_std w h living x y hx0 hxw hy0 hyh]

theorem setAlive_ok (m : SparseMatrix) (x y : Int) (v : Bool) (w h : Int)
    (hx0 : 0 ≤ x) (hxw : x < w) (hy0 : 0 ≤ y) (hyh : y < h) :
    setAlive m x y v (some w) (some h) = .ok (matrixSet m x y v) := by
  unfold setAlive ltMax
  rw [if_neg (by simp; omega), if_neg (by simp; omega)]

theorem foldlM_setAlive_ok (l : List (Int × Int)) (w h : Int)
    (f : Int × Int → Bool) (m0 : SparseMatrix)
    (hl : ∀ p ∈ l, 0 ≤ p.1 ∧ p.1 < w ∧ 0 ≤ p.2 ∧ p.2 < h) :
    (l.foldlM (fun next p => setAlive next p.1 p.2 (f p) (some w) (some h)) m0 :
        Except String SparseMatrix)
      = .ok (l.foldl (fun next p => matrixSet next p.1 p.2 (f p)) m0) := by
  induction l generalizing m0 with
  | nil => rfl
  | cons p rest ih =>
    obtain ⟨h1, h2, h3, h4⟩ := hl p (List.mem_cons_self p rest)
    rw [List.foldlM_cons, setAlive_ok _ _ _ _ _ _ h1 h2 h3 h4]
    simp only [Bind.bind, Except.bind]
    rw [ih _ (fun q hq => hl q (List.mem_cons_of_mem p hq)), List.foldl_cons]

theorem isAlive_foldl_matrixSet (l : List (Int × Int)) (f : Int × Int → Bool)
    (m0 : SparseMatrix) (a b : Int) :
    isAlive (l.foldl (fun next p => matrixSet next p.1 p.2 (f p)) m0) a b
      = if (a, b) ∈ l then f (a, b) else isAlive m0 a b := by
  induction l generalizing m0 with
  | nil => simp
  | cons p rest ih =>
    rw [List.foldl_cons, ih]
    by_cases hm : (a, b) ∈ rest
    · simp [hm]
    · by_cases hp : (a, b) = p
      · subst hp
        simp [hm, isAlive_matrixSet]
      · rw [Prod.ext_iff] at hp
        simp only [List.mem_cons, hm, or_false, Prod.ext_iff]
        rw [isAlive_matrixSet]
        simp [hp, hm]

theorem mem_coordsList (w h a b : Int) :
    (a, b) ∈ coordsList w h ↔ 0 ≤ a ∧ a < w ∧ 0 ≤ b ∧ b < h := by
  unfold coordsList
  rw [List.mem_flatMap]
  constructor
  · rintro ⟨xn, hxn, hmem⟩
    rw [List.mem_map] at hmem
    obtain ⟨yn, hyn, heq⟩ := hmem
    rw [List.mem_range] at hxn hyn
    cases heq
    simp only [Int.ofNat_eq_coe]
    refine ⟨by omega, by omega, by omega, by omega⟩
  · rintro ⟨h1, h2, h3, h4⟩
    refine ⟨a.toNat, ?_, ?_⟩
    · rw [List.mem_range]; omega
    · rw [List.mem_map]
      refine ⟨b.toNat, ?_, ?_⟩
      · rw [List.mem_range]; omega
      · rw [Prod.mk.injEq]
        simp only [Int.ofNat_eq_coe]
        constructor <;> omega

/-! ## tick computes the textbook step -/

theorem isAlive_emptyMatrix (a b : Int) : isAlive emptyMatrix a b = false := rfl

theorem inBounds_eq_true (w h a b : Int) :
    inBounds w h (a, b) = true ↔ 0 ≤ a ∧ a < w ∧ 0 ≤ b ∧ b < h := by
  simp [inBounds, and_assoc]

/-- Claim C1: for every World with positive width and height and any grid
state, `tick()` sweeps the full rectangle, deciding each cell with
`willLive` over the pre-tick grid, writes into a freshly constructed grid,
installs it as the World's state and returns it; the result is exactly the
standard B3/S23 step on the bounded rectangle (and dead outside it). -/
theorem tick_computes_std_step (g : Game) (hw : 0 < g.width) (hh : 0 < g.height) :
    ∃ next : SparseMatrix,
      Game.tick g = .ok ({ g with living := next }, next) ∧
      ∀ a b : Int,
        isAlive next a b =
          (inBounds g.width g.height (a, b) &&
            stdStep g.width g.height (fun u v => isAlive g.living u v) a b) := by
  unfold Game.tick
  rw [foldlM_setAlive_ok _ _ _ _ _ (fun p hp => by
    obtain ⟨pa, pb⟩ := p
    exact (mem_coordsList g.width g.height pa pb).mp hp)]
  refine ⟨_, rfl, ?_⟩
  intro a b
  rw [isAlive_foldl_matrixSet]
  by_cases hmem : (a, b) ∈ coordsList g.width g.height
  · obtain ⟨h1, h2, h3, h4⟩ := (mem_coordsList g.width g.height a b).mp hmem
    rw [if_pos hmem, willLive_eq_stdStep g.width g.height g.living a b h1 h2 h3 h4]
    have hb : inBounds g.width g.height (a, b) = true :=
      (inBounds_eq_true g.width g.height a b).mpr ⟨h1, h2, h3, h4⟩
    rw [hb, Bool.true_and]
  · rw [if_neg hmem, isAlive_emptyMatrix]
    have hb : inBounds g.width g.height (a, b) = false := by
      rw [← Bool.not_eq_true]
      intro hc
      exact hmem ((mem_coordsList g.width g.height a b).mpr
        ((inBounds_eq_true g.width g.height a b).mp hc))
    rw [hb, Bool.false_and]

/-- Witness for claim C1 at a concrete 2 by 2 world. -/
theorem tick_witness_check :
    (0 : Int) < 2 ∧
    ∃ next : SparseMatrix,
      Game.tick (Game.create 2 2) = .ok ({ Game.create 2 2 with living := next }, next) ∧
      ∀ a b : Int,
        isAlive next a b =
          (inBounds 2 2 (a, b) &&
            stdStep 2 2 (fun u v => isAlive (Game.create 2 2).living u v) a b) :=
  ⟨by decide, tick_computes_std_step (Game.create 2 2) (by decide) (by decide)⟩

/-! ## Neighbor counts (spec section 8) -/

theorem length_ite_single (c : Prop) [Decidable c] (p : Int × Int) :
    (if c then [p] else []).length = if c then 1 else 0 := by
  split_ifs <;> rfl

theorem getNeighbors_length (x y w h : Int) (hin : ¬(x < 0 ∨ y < 0 ∨ x ≥ w ∨ y ≥ h)) :
    (getNeighbors x y w h).length =
      (if y - 1 ≥ 0 then 1 else 0) + (if x + 1 < w ∧ y - 1 ≥ 0 then 1 else 0) +
      (if x + 1 < w then 1 else 0) + (if x + 1 < w ∧ y + 1 < h then 1 else 0) +
      (if y + 1 < h then 1 else 0) + (if x - 1 ≥ 0 ∧ y + 1 < h then 1 else 0) +
      (if x - 1 ≥ 0 then 1 else 0) + (if x - 1 ≥ 0 ∧ y - 1 ≥ 0 then 1 else 0) := by
  unfold getNeighbors
  rw [if_neg hin]
  simp only [List.length_append, length_ite_single]

set_option maxHeartbeats 1000000 in
/-- Claim C2, amended: for widths and heights of at least 3, `getNeighbors`
returns 8 coordinates for an interior cell, 5 (not 3, as claimed) for a
non-corner edge cell, 3 (not 2, as claimed) for a corner cell, and 0 for a
cell outside the rectangle. -/
theorem getNeighbors_counts (x y w h : Int) (hw : 3 ≤ w) (hh : 3 ≤ h) :
    (0 < x ∧ x < w - 1 ∧ 0 < y ∧ y < h - 1 → (getNeighbors x y w h).length = 8) ∧
    ((0 ≤ x ∧ x < w ∧ 0 ≤ y ∧ y < h) ∧
        (x = 0 ∨ x = w - 1 ∨ y = 0 ∨ y = h - 1) ∧
        ¬((x = 0 ∨ x = w - 1) ∧ (y = 0 ∨ y = h - 1)) →
      (getNeighbors x y w h).length = 5) ∧
    ((x = 0 ∨ x = w - 1) ∧ (y = 0 ∨ y = h - 1) → (getNeighbors x y w h).length = 3) ∧
    (x < 0 ∨ y < 0 ∨ x ≥ w ∨ y ≥ h → (getNeighbors x y w h).length = 0) := by
  refine ⟨?_, ?_, ?_, ?_⟩
  · rintro ⟨h1, h2, h3, h4⟩
    rw [getNeighbors_length x y w h (by omega)]
    split_ifs <;> omega
  · rintro ⟨⟨h1, h2, h3, h4⟩, hedge, hnc⟩
    rw [getNeighbors_length x y w h (by omega)]
    rcases hedge with rfl | rfl | rfl | rfl <;> split_ifs <;> omega
  · rintro ⟨hx, hy⟩
    rw [getNeighbors_length x y w h (by omega)]
    rcases hx with rfl | rfl <;> rcases hy with rfl | rfl <;> split_ifs <;> omega
  · intro hout
    unfold getNeighbors
    rw [if_pos hout]
    rfl

/-- Witness for the amended claim C2 on a concrete 3 by 3 grid. -/
theorem getNeighbors_counts_check :
    (3 : Int) ≤ 3 ∧
    (getNeighbors 1 1 3 3).length = 8 ∧
    (getNeighbors 0 1 3 3).length = 5 ∧
    (getNeighbors 0 0 3 3).length = 3 ∧
    (getNeighbors 3 1 3 3).length = 0 :=
  ⟨by decide,
   (getNeighbors_counts 1 1 3 3 (by decide) (by decide)).1 (by decide),
   (getNeighbors_counts 0 1 3 3 (by decide) (by decide)).2.1 (by decide),
   (getNeighbors_counts 0 0 3 3 (by decide) (by decide)).2.2.1 (by decide),
   (getNeighbors_counts 3 1 3 3 (by decide) (by decide)).2.2.2 (by decide)⟩

/-- Counterexample to claim C2 as stated: on a 3 by 3 grid the edge cell
(0, 1) has 5 neighbors, not 3, and the corner cell (0, 0) has 3 neighbors,
not 2. -/
theorem getNeighbors_spec_counts_cex :
    ((getNeighbors 0 1 3 3).length = 5 ∧ ¬ (getNeighbors 0 1 3 3).length = 3) ∧
    ((getNeighbors 0 0 3 3).length = 3 ∧ ¬ (getNeighbors 0 0 3 3).length = 2) := by
  decide

/-! ## The survival/birth rule -/

/-- Seed a grid: set each listed cell alive (used for concrete test
grids). -/
def gridOf (cells : List (Int × Int)) : SparseMatrix :=
  cells.foldl (fun m p => matrixSet m p.1 p.2 true) emptyMatrix

/-- Claim C3: `willLive` returns true for a live cell iff its live-neighbor
count is exactly 2 or 3 and for a dead cell iff the count is exactly 3;
in particular a live cell with 1, 2, 3, 4 live neighbors yields false,
true, true, false, and a dead cell with 3 or 2 yields true, false. -/
theorem willLive_b3s23 :
    (∀ (w h : Int) (living : SparseMatrix) (x y : Int),
      willLive w h living x y = true ↔
        ((isAlive living x y = true ∧
            (liveNeighborCount w h living x y = 2 ∨
              liveNeighborCount w h living x y = 3)) ∨
          (isAlive living x y = false ∧ liveNeighborCount w h living x y = 3))) ∧
    willLive 3 3 (gridOf [(1, 1), (0, 0)]) 1 1 = false ∧
    willLive 3 3 (gridOf [(1, 1), (0, 0), (0, 1)]) 1 1 = true ∧
    willLive 3 3 (gridOf [(1, 1), (0, 0), (0, 1), (0, 2)]) 1 1 = true ∧
    willLive 3 3 (gridOf [(1, 1), (0, 0), (0, 1), (0, 2), (1, 0)]) 1 1 = false ∧
    willLive 3 3 (gridOf [(0, 0), (0, 1), (0, 2)]) 1 1 = true ∧
    willLive 3 3 (gridOf [(0, 0), (0, 1)]) 1 1 = false := by
  refine ⟨?_, by decide, by decide, by decide, by decide, by decide, by decide⟩
  intro w h living x y
  unfold willLive
  by_cases hal : isAlive living x y <;> simp [hal]

/-! ## Pattern parsing -/

/-- Claim C4: `parsePattern` splits on line breaks, skips blank
(whitespace-only) lines without consuming a row index, and emits `(x, y)`
exactly for the characters `O` of the retained rows; on the pattern
`.O\nO.\n\n` it yields exactly `[(1, 0), (0, 1)]` with no row 2. -/
theorem parsePattern_spec :
    (∀ (cs : List Char) (x y : Nat),
      (Int.ofNat x, Int.ofNat y) ∈ parsePattern cs ↔
        ∃ row, (patternRows cs)[y]? = some row ∧ row[x]? = some 'O') ∧
    parsePattern (".O\nO.\n\n".toList) = [(1, 0), (0, 1)] := by
  constructor
  · intro cs x y
    unfold parsePattern
    rw [List.mem_flatMap]
    constructor
    · rintro ⟨⟨yi, row⟩, hyrow, hmem⟩
      rw [List.mem_filterMap] at hmem
      obtain ⟨⟨xi, c⟩, hxc, hres⟩ := hmem
      by_cases hO : c = 'O'
      · subst hO
        rw [if_pos rfl] at hres
        simp only [Option.some.injEq, Prod.mk.injEq] at hres
        obtain ⟨hx, hy⟩ := hres
        have hx2 : xi = x := Int.ofNat.inj hx
        have hy2 : yi = y := Int.ofNat.inj hy
        subst hx2; subst hy2
        exact ⟨row, List.mk_mem_enum_iff_getElem?.mp hyrow,
          List.mk_mem_enum_iff_getElem?.mp hxc⟩
      · rw [if_neg hO] at hres
        exact absurd hres (by simp)
    · rintro ⟨row, hrow, hO⟩
      refine ⟨(y, row), ?_, ?_⟩
      · exact List.mk_mem_enum_iff_getElem?.mpr hrow
      · rw [List.mem_filterMap]
        exact ⟨(x, 'O'), List.mk_mem_enum_iff_getElem?.mpr hO, by simp⟩
  · decide

/-! ## Out-of-bounds mutation is rejected without effect -/

/-- Claim C5: a `set` call whose coordinate violates the supplied bounds
fails with an out-of-bounds error, and the grid after the call is exactly
the grid before it (the mutation has no partial effect). -/
theorem setAlive_out_of_bounds (living : SparseMatrix) (x y : Int) (alive : Bool)
    (mx my : Int) (hoob : x < 0 ∨ x ≥ mx ∨ y < 0 ∨ y ≥ my) :
    (∃ msg, setAlive living x y alive (some mx) (some my) = .error msg) ∧
    setAliveState living x y alive (some mx) (some my) = living ∧
    ∀ a b : Int,
      isAlive (setAliveState living x y alive (some mx) (some my)) a b =
        isAlive living a b := by
  have herr : ∃ msg, setAlive living x y alive (some mx) (some my) = .error msg := by
    unfold setAlive ltMax
    by_cases h1 : x < 0 ∨ decide (x < mx) = false
    · rw [if_pos h1]; exact ⟨_, rfl⟩
    · rw [if_neg h1, if_pos ?_]
      · exact ⟨_, rfl⟩
      · simp only [not_or, Bool.not_eq_false, decide_eq_true_eq] at h1
        simp only [decide_eq_false_iff_not, not_lt]
        omega
  obtain ⟨msg, hmsg⟩ := herr
  have hstate : setAliveState living x y alive (some mx) (some my) = living := by
    unfold setAliveState
    rw [hmsg]
  exact ⟨⟨msg, hmsg⟩, hstate, fun a b => by rw [hstate]⟩

/-- Witness for claim C5: setting (3, 1) on an empty 2 by 2 grid fails and
changes nothing. -/
theorem setAlive_out_of_bounds_check :
    ((3 : Int) < 0 ∨ (3 : Int) ≥ 2 ∨ (1 : Int) < 0 ∨ (1 : Int) ≥ 2) ∧
    ((∃ msg, setAlive emptyMatrix 3 1 true (some 2) (some 2) = .error msg) ∧
      setAliveState emptyMatrix 3 1 true (some 2) (some 2) = emptyMatrix ∧
      ∀ a b : Int,
        isAlive (setAliveState emptyMatrix 3 1 true (some 2) (some 2)) a b =
          isAlive emptyMatrix a b) :=
  ⟨by decide, setAlive_out_of_bounds emptyMatrix 3 1 true 2 2 (by decide)⟩

/-! ## Pattern application -/

theorem setAlive_ok_inv (living : SparseMatrix) (x y : Int) (v : Bool) (w h : Int)
    (m : SparseMatrix) (he : setAlive living x y v (some w) (some h) = .ok m) :
    (0 ≤ x ∧ x < w ∧ 0 ≤ y ∧ y < h) ∧ m = matrixSet living x y v := by
  unfold setAlive at he
  split_ifs at he with h1 h2
  all_goals try cases he
  all_goals simp only [ltMax, not_or, Bool.not_eq_false, decide_eq_true_eq,
    not_lt] at h1 h2
  all_goals exact ⟨⟨h1.1, h1.2, h2.1, h2.2⟩, rfl⟩

theorem setAlive_err_of_oob (living : SparseMatrix) (x y : Int) (v : Bool) (w h : Int)
    (hoob : ¬(0 ≤ x ∧ x < w ∧ 0 ≤ y ∧ y < h)) :
    ∃ msg, setAlive living x y v (some w) (some h) = .error msg := by
  unfold setAlive ltMax
  by_cases h1 : x < 0 ∨ decide (x < w) = false
  · rw [if_pos h1]; exact ⟨_, rfl⟩
  · rw [if_neg h1, if_pos ?_]
    · exact ⟨_, rfl⟩
    · simp only [not_or, Bool.not_eq_false, decide_eq_true_eq, not_lt] at h1
      simp only [decide_eq_false_iff_not, not_lt]
      omega

theorem applyCells_all_ok (w h : Int) (cells : List (Int × Int)) :
    ∀ living : SparseMatrix,
      (∀ p ∈ cells, 0 ≤ p.1 ∧ p.1 < w ∧ 0 ≤ p.2 ∧ p.2 < h) →
      applyCells living cells (some w) (some h) =
        (none, cells.foldl (fun m p => matrixSet m p.1 p.2 true) living) := by
  induction cells with
  | nil => intro living _; rfl
  | cons p rest ih =>
    intro living hall
    obtain ⟨h1, h2, h3, h4⟩ := hall p (List.mem_cons_self p rest)
    unfold applyCells
    rw [setAlive_ok _ _ _ _ _ _ h1 h2 h3 h4]
    dsimp only
    rw [ih _ (fun q hq => hall q (List.mem_cons_of_mem p hq)), List.foldl_cons]

theorem applyCells_none_iff (w h : Int) (cells : List (Int × Int)) :
    ∀ living : SparseMatrix,
      (applyCells living cells (some w) (some h)).1 = none ↔
        ∀ p ∈ cells, 0 ≤ p.1 ∧ p.1 < w ∧ 0 ≤ p.2 ∧ p.2 < h := by
  induction cells with
  | nil => intro living; simp [applyCells]
  | cons p rest ih =>
    intro living
    by_cases hp : 0 ≤ p.1 ∧ p.1 < w ∧ 0 ≤ p.2 ∧ p.2 < h
    · obtain ⟨h1, h2, h3, h4⟩ := hp
      unfold applyCells
      rw [setAlive_ok _ _ _ _ _ _ h1 h2 h3 h4]
      dsimp only
      rw [ih]
      constructor
      · intro hrest q hq
        rcases List.mem_cons.mp hq with rfl | hq2
        · exact ⟨h1, h2, h3, h4⟩
        · exact hrest q hq2
      · intro hall q hq
        exact hall q (List.mem_cons_of_mem p hq)
    · obtain ⟨msg, hmsg⟩ := setAlive_err_of_oob living p.1 p.2 true w h hp
      unfold applyCells
      rw [hmsg]
      dsimp only
      simp only [reduceCtorEq, false_iff, not_forall]
      exact ⟨p, List.mem_cons_self p rest, hp⟩

theorem applyCells_stops_at_failure (w h : Int) (pre : List (Int × Int))
    (bad : Int × Int) (post : List (Int × Int))
    (hbad : ¬(0 ≤ bad.1 ∧ bad.1 < w ∧ 0 ≤ bad.2 ∧ bad.2 < h)) :
    ∀ living : SparseMatrix,
      (∀ p ∈ pre, 0 ≤ p.1 ∧ p.1 < w ∧ 0 ≤ p.2 ∧ p.2 < h) →
      ∃ msg,
        applyCells living (pre ++ bad :: post) (some w) (some h) =
          (some msg, pre.foldl (fun m p => matrixSet m p.1 p.2 true) living) := by
  induction pre with
  | nil =>
    intro living _
    obtain ⟨msg, hmsg⟩ := setAlive_err_of_oob living bad.1 bad.2 true w h hbad
    refine ⟨msg, ?_⟩
    rw [List.nil_append]
    unfold applyCells
    rw [hmsg]
    rfl
  | cons p rest ih =>
    intro living hall
    obtain ⟨h1, h2, h3, h4⟩ := hall p (List.mem_cons_self p rest)
    obtain ⟨msg, hmsg⟩ := ih (matrixSet living p.1 p.2 true)
      (fun q hq => hall q (List.mem_cons_of_mem p hq))
    refine ⟨msg, ?_⟩
    rw [List.cons_append]
    unfold applyCells
    rw [setAlive_ok _ _ _ _ _ _ h1 h2 h3 h4]
    dsimp only
    rw [hmsg, List.foldl_cons]

/-- Claim C6: `applyPattern` translates the pattern by the offsets exactly
when one of them is positive, otherwise applies it verbatim, and marks
each resulting coordinate alive through `setAlive` bounded by the World's
width and height: it succeeds iff all resulting coordinates are in bounds,
and on success the live set is the old one plus the resulting cells. -/
theorem applyPattern_offset_translation (g : Game) (pattern : List (Int × Int))
    (ox oy : Int) :
    ((Game.applyPattern g pattern ox oy).1 = none ↔
      ∀ p ∈ (if ox > 0 ∨ oy > 0 then
          pattern.map (fun q => (q.1 + ox, q.2 + oy)) else pattern),
        0 ≤ p.1 ∧ p.1 < g.width ∧ 0 ≤ p.2 ∧ p.2 < g.height) ∧
    ((Game.applyPattern g pattern ox oy).1 = none →
      ∀ a b : Int,
        isAlive (Game.applyPattern g pattern ox oy).2.living a b =
          (isAlive g.living a b ||
            decide ((a, b) ∈ (if ox > 0 ∨ oy > 0 then
              pattern.map (fun q => (q.1 + ox, q.2 + oy)) else pattern)))) := by
  unfold Game.applyPattern
  dsimp only
  constructor
  · exact applyCells_none_iff g.width g.height _ g.living
  · intro hnone a b
    have hall := (applyCells_none_iff g.width g.height _ g.living).mp hnone
    rw [applyCells_all_ok g.width g.height _ g.living hall]
    dsimp only
    rw [isAlive_foldl_matrixSet]
    by_cases hmem : (a, b) ∈ (if ox > 0 ∨ oy > 0 then
        pattern.map (fun q => (q.1 + ox, q.2 + oy)) else pattern)
    · simp [hmem]
    · simp [hmem]

/-- Claim C7: `applyPattern` is a non-atomic batch: it stops at the first
out-of-bounds coordinate with an error, every cell before the failing one
stays applied, and no cell from the failing one on is applied. -/
theorem applyPattern_nonatomic (g : Game) (pre post : List (Int × Int))
    (bad : Int × Int)
    (hpre : ∀ p ∈ pre, 0 ≤ p.1 ∧ p.1 < g.width ∧ 0 ≤ p.2 ∧ p.2 < g.height)
    (hbad : ¬(0 ≤ bad.1 ∧ bad.1 < g.width ∧ 0 ≤ bad.2 ∧ bad.2 < g.height)) :
    (∃ msg, (Game.applyPattern g (pre ++ bad :: post) 0 0).1 = some msg) ∧
    ∀ a b : Int,
      isAlive (Game.applyPattern g (pre ++ bad :: post) 0 0).2.living a b =
        (isAlive g.living a b || decide ((a, b) ∈ pre)) := by
  unfold Game.applyPattern
  dsimp only
  rw [if_neg (by omega)]
  obtain ⟨msg, hmsg⟩ :=
    applyCells_stops_at_failure g.width g.height pre bad post hbad g.living hpre
  rw [hmsg]
  refine ⟨⟨msg, rfl⟩, ?_⟩
  intro a b
  dsimp only
  rw [isAlive_foldl_matrixSet]
  by_cases hmem : (a, b) ∈ pre
  · simp [hmem]
  · simp [hmem]

/-- Witness for claim C6 on a concrete world and pattern with offset
(1, 0). -/
theorem applyPattern_offset_translation_check :
    ((Game.applyPattern (Game.create 2 2) [(0, 0)] 1 0).1 = none ↔
      ∀ p ∈ (if (1 : Int) > 0 ∨ (0 : Int) > 0 then
          [((0 : Int), (0 : Int))].map (fun q => (q.1 + 1, q.2 + 0))
        else [(0, 0)]),
        0 ≤ p.1 ∧ p.1 < (Game.create 2 2).width ∧
          0 ≤ p.2 ∧ p.2 < (Game.create 2 2).height) ∧
    ((Game.applyPattern (Game.create 2 2) [(0, 0)] 1 0).1 = none →
      ∀ a b : Int,
        isAlive (Game.applyPattern (Game.create 2 2) [(0, 0)] 1 0).2.living a b =
          (isAlive (Game.create 2 2).living a b ||
            decide ((a, b) ∈ (if (1 : Int) > 0 ∨ (0 : Int) > 0 then
              [((0 : Int), (0 : Int))].map (fun q => (q.1 + 1, q.2 + 0))
            else [(0, 0)])))) :=
  applyPattern_offset_translation (Game.create 2 2) [(0, 0)] 1 0

/-- Witness for claim C7: the pattern [(0,0), (5,0), (1,1)] on a 2 by 2
world fails at (5, 0) leaving exactly (0, 0) applied. -/
theorem applyPattern_nonatomic_check :
    (∃ msg,
      (Game.applyPattern (Game.create 2 2) ([(0, 0)] ++ (5, 0) :: [(1, 1)]) 0 0).1 =
        some msg) ∧
    ∀ a b : Int,
      isAlive
          (Game.applyPattern (Game.create 2 2)
            ([(0, 0)] ++ (5, 0) :: [(1, 1)]) 0 0).2.living a b =
        (isAlive (Game.create 2 2).living a b ||
          decide ((a, b) ∈ [((0 : Int), (0 : Int))])) :=
  applyPattern_nonatomic (Game.create 2 2) [(0, 0)] [(1, 1)] (5, 0)
    (by decide) (by decide)

/-! ## The bounds invariant -/

/-- The World invariant of the spec: every live coordinate is inside the
bounded rectangle. -/
def WorldInv (g : Game) : Prop :=
  ∀ a b : Int, isAlive g.living a b = true →
    0 ≤ a ∧ a < g.width ∧ 0 ≤ b ∧ b < g.height

theorem applyCells_isAlive_bound (w h : Int) (cells : List (Int × Int)) :
    ∀ (living : SparseMatrix) (a b : Int),
      isAlive ((applyCells living cells (some w) (some h)).2) a b = true →
      isAlive living a b = true ∨ (0 ≤ a ∧ a < w ∧ 0 ≤ b ∧ b < h) := by
  induction cells with
  | nil => intro living a b hal; exact Or.inl hal
  | cons p rest ih =>
    intro living a b hal
    unfold applyCells at hal
    cases he : setAlive living p.1 p.2 true (some w) (some h) with
    | ok m =>
      rw [he] at hal
      dsimp only at hal
      obtain ⟨⟨h1, h2, h3, h4⟩, hm⟩ := setAlive_ok_inv living p.1 p.2 true w h m he
      subst hm
      rcases ih (matrixSet living p.1 p.2 true) a b hal with hold | hbo
      · rw [isAlive_matrixSet] at hold
        by_cases hp : a = p.1 ∧ b = p.2
        · exact Or.inr ⟨hp.1 ▸ h1, hp.1 ▸ h2, hp.2 ▸ h3, hp.2 ▸ h4⟩
        · rw [if_neg hp] at hold
          exact Or.inl hold
      · exact Or.inr hbo
    | error msg =>
      rw [he] at hal
      dsimp only at hal
      exact Or.inl hal

/-- The grid that one `tick` sweep constructs (helper naming the fold that
`Game.tick` performs). -/
def tickGrid (g : Game) : SparseMatrix :=
  (coordsList g.width g.height).foldl
    (fun next p =>
      matrixSet next p.1 p.2 (willLive g.width g.height g.living p.1 p.2))
    emptyMatrix

theorem tick_eq (g : Game) :
    Game.tick g = .ok ({ g with living := tickGrid g }, tickGrid g) := by
  unfold Game.tick tickGrid
  rw [foldlM_setAlive_ok _ _ _ _ _ (fun p hp => by
    obtain ⟨pa, pb⟩ := p
    exact (mem_coordsList g.width g.height pa pb).mp hp)]
  rfl

/-- Claim C9: for a World of positive dimensions the invariant that every
live coordinate lies in the bounded rectangle holds initially and is
preserved by `applyPattern` (whether it succeeds or fails), `clear`, and
`tick`. -/
theorem world_invariant (width height : Int) (hw : 0 < width) (hh : 0 < height) :
    WorldInv (Game.create width height) ∧
    (∀ (g : Game) (pattern : List (Int × Int)) (ox oy : Int),
      WorldInv g → WorldInv (Game.applyPattern g pattern ox oy).2) ∧
    (∀ g : Game, WorldInv g → WorldInv (Game.clear g)) ∧
    (∀ (g g2 : Game) (ret : SparseMatrix),
      WorldInv g → Game.tick g = .ok (g2, ret) → WorldInv g2) := by
  refine ⟨?_, ?_, ?_, ?_⟩
  · intro a b hal
    dsimp only [Game.create] at hal ⊢
    rw [isAlive_emptyMatrix] at hal
    cases hal
  · intro g pattern ox oy hinv a b hal
    unfold Game.applyPattern at hal
    dsimp only at hal
    rcases applyCells_isAlive_bound g.width g.height _ g.living a b hal with hold | hbo
    · exact hinv a b hold
    · exact hbo
  · intro g hinv a b hal
    unfold Game.clear at hal
    dsimp only at hal
    rw [isAlive_emptyMatrix] at hal
    cases hal
  · intro g g2 ret hinv htick a b hal
    rw [tick_eq] at htick
    simp only [Except.ok.injEq, Prod.mk.injEq] at htick
    obtain ⟨hg2, _⟩ := htick
    subst hg2
    dsimp only at hal ⊢
    unfold tickGrid at hal
    rw [isAlive_foldl_matrixSet] at hal
    by_cases hmem : (a, b) ∈ coordsList g.width g.height
    · exact (mem_coordsList g.width g.height a b).mp hmem
    · rw [if_neg hmem, isAlive_emptyMatrix] at hal
      cases hal

/-- Witness for claim C9 at dimensions 1 by 1. -/
theorem world_invariant_check :
    (0 : Int) < 1 ∧
    (WorldInv (Game.create 1 1) ∧
      (∀ (g : Game) (pattern : List (Int × Int)) (ox oy : Int),
        WorldInv g → WorldInv (Game.applyPattern g pattern ox oy).2) ∧
      (∀ g : Game, WorldInv g → WorldInv (Game.clear g)) ∧
      (∀ (g g2 : Game) (ret : SparseMatrix),
        WorldInv g → Game.tick g = .ok (g2, ret) → WorldInv g2)) :=
  ⟨by decide, world_invariant 1 1 (by decide) (by decide)⟩

/-! ## The two setAlive variants are observationally equivalent -/

/-- Run a call sequence through the `src/lib/game.js` `setAlive` (bounds
`mx = w`, `my = h`): stop at the first throw, keeping the state the loop
had reached. -/
def runLib (living : SparseMatrix) (calls : List (Int × Int × Bool))
    (w h : Int) : Option String × SparseMatrix :=
  match calls with
  | [] => (none, living)
  | c :: rest =>
    match setAlive living c.1 c.2.1 c.2.2 (some w) (some h) with
    | .ok m => runLib m rest w h
    | .error e => (some e, living)

/-- Run the same call sequence through the `src/gol.js` `setAlive`. -/
def runGol (living : SparseMatrix) (calls : List (Int × Int × Bool))
    (w h : Int) : Option String × SparseMatrix :=
  match calls with
  | [] => (none, living)
  | c :: rest =>
    match golSetAlive living c.1 c.2.1 c.2.2 w h with
    | .ok m => runGol m rest w h
    | .error e => (some e, living)

theorem golSetAlive_err_iff (living1 living2 : SparseMatrix) (x y : Int)
    (v : Bool) (w h : Int) :
    (∀ e, setAlive living1 x y v (some w) (some h) = .error e ↔
      golSetAlive living2 x y v w h = .error e) ∧
    (¬(x < 0 ∨ x ≥ w) → ¬(y < 0 ∨ y ≥ h) →
      setAlive living1 x y v (some w) (some h) = .ok (matrixSet living1 x y v) ∧
      golSetAlive living2 x y v w h = .ok (golMatrixSet living2 x y v)) := by
  constructor
  · intro e
    unfold setAlive golSetAlive ltMax
    by_cases h1 : x < 0 ∨ x ≥ w
    · rw [if_pos h1, if_pos (by simp only [decide_eq_false_iff_not, not_lt]; omega)]
    · rw [if_neg h1, if_neg (by simp only [decide_eq_false_iff_not, not_lt]; omega)]
      by_cases h2 : y < 0 ∨ y ≥ h
      · rw [if_pos h2, if_pos (by simp only [decide_eq_false_iff_not, not_lt]; omega)]
      · rw [if_neg h2, if_neg (by simp only [decide_eq_false_iff_not, not_lt]; omega)]
        simp
  · intro h1 h2
    unfold setAlive golSetAlive ltMax
    rw [if_neg h1, if_neg h2,
      if_neg (show ¬(x < 0 ∨ decide (x < w) = false) by
        simp only [decide_eq_false_iff_not, not_lt]; omega),
      if_neg (show ¬(y < 0 ∨ decide (y < h) = false) by
        simp only [decide_eq_false_iff_not, not_lt]; omega)]
    exact ⟨rfl, rfl⟩

theorem run_agree (calls : List (Int × Int × Bool)) (w h : Int) :
    ∀ m1 m2 : SparseMatrix,
      (∀ a b : Int, isAlive m1 a b = isAlive m2 a b) →
      (runLib m1 calls w h).1 = (runGol m2 calls w h).1 ∧
      ∀ a b : Int,
        isAlive (runLib m1 calls w h).2 a b = isAlive (runGol m2 calls w h).2 a b := by
  induction calls with
  | nil => intro m1 m2 hagree; exact ⟨rfl, hagree⟩
  | cons c rest ih =>
    intro m1 m2 hagree
    unfold runLib runGol
    by_cases hx : c.1 < 0 ∨ c.1 ≥ w
    · obtain ⟨e, he⟩ : ∃ e, setAlive m1 c.1 c.2.1 c.2.2 (some w) (some h) = .error e := by
        unfold setAlive ltMax
        rw [if_pos (by simp only [decide_eq_false_iff_not, not_lt]; omega)]
        exact ⟨_, rfl⟩
      have hg := ((golSetAlive_err_iff m1 m2 c.1 c.2.1 c.2.2 w h).1 e).mp he
      rw [he, hg]
      exact ⟨rfl, hagree⟩
    · by_cases hy : c.2.1 < 0 ∨ c.2.1 ≥ h
      · obtain ⟨e, he⟩ : ∃ e, setAlive m1 c.1 c.2.1 c.2.2 (some w) (some h) = .error e := by
          unfold setAlive ltMax
          rw [if_neg (by simp only [decide_eq_false_iff_not, not_lt]; omega),
            if_pos (by simp only [decide_eq_false_iff_not, not_lt]; omega)]
          exact ⟨_, rfl⟩
        have hg := ((golSetAlive_err_iff m1 m2 c.1 c.2.1 c.2.2 w h).1 e).mp he
        rw [he, hg]
        exact ⟨rfl, hagree⟩
      · obtain ⟨hok1, hok2⟩ := (golSetAlive_err_iff m1 m2 c.1 c.2.1 c.2.2 w h).2 hx hy
        rw [hok1, hok2]
        dsimp only
        refine ih _ _ ?_
        intro a b
        rw [isAlive_matrixSet, isAlive_golMatrixSet]
        by_cases hp : a = c.1 ∧ b = c.2.1
        · rw [if_pos hp, if_pos hp]
        · rw [if_neg hp, if_neg hp]
          exact hagree a b

/-- Claim C10: the keep-empty-set variant of `setAlive`
(`src/lib/game.js`) and the delete-empty-set variant (`src/gol.js`) are
observationally equivalent: run from the empty grid over any identical
call sequence, they stop at the same point and answer `isAlive`
identically at every coordinate. -/
theorem setAlive_variants_equiv (calls : List (Int × Int × Bool)) (w h : Int) :
    (runLib emptyMatrix calls w h).1 = (runGol emptyMatrix calls w h).1 ∧
    ∀ a b : Int,
      isAlive (runLib emptyMatrix calls w h).2 a b =
        isAlive (runGol emptyMatrix calls w h).2 a b :=
  run_agree calls w h emptyMatrix emptyMatrix (fun _ _ => rfl)

/-! ## A reference-level model of `tick`

To state that `tick()` never writes to the grid object the World held
before the call, grids live in an explicit heap of object references:
`tick` allocates a fresh reference for `next`, every `setAlive` of the
sweep writes through that reference, and the final installation swaps the
World's reference. -/

/-- A heap of grid objects: `grids r` is the object behind reference `r`;
references below `fresh` are allocated. -/
structure Heap where
  grids : Nat → SparseMatrix
  fresh : Nat

/-- Dereference. -/
def Heap.get (h : Heap) (r : Nat) : SparseMatrix := h.grids r

/-- Overwrite the object behind `r`. -/
def Heap.store (h : Heap) (r : Nat) (m : SparseMatrix) : Heap :=
  ⟨fun q => if q = r then m else h.grids q, h.fresh⟩

/-- Allocate a new object (`const next = {}`), returning its reference. -/
def Heap.alloc (h : Heap) (m : SparseMatrix) : Heap × Nat :=
  (⟨fun q => if q = h.fresh then m else h.grids q, h.fresh + 1⟩, h.fresh)

/-- A `Game` whose grid is held by reference. -/
structure GameRef where
  width : Int
  height : Int
  livingRef : Nat

/-- `Game.prototype.tick()` at the reference level: allocate `next`,
sweep the rectangle writing through `next`'s reference while reading the
world's current grid through its reference, then install `next`'s
reference as the world's grid.  Returns the heap, the updated world and
the returned grid's reference. -/
def tickRef (h : Heap) (g : GameRef) : Except String (Heap × GameRef × Nat) :=
  let ar := h.alloc emptyMatrix
  match (coordsList g.width g.height).foldlM
      (fun hh p =>
        (setAlive (hh.get ar.2) p.1 p.2
            (willLive g.width g.height (hh.get g.livingRef) p.1 p.2)
            (some g.width) (some g.height)).map
          (fun m => hh.store ar.2 m)) ar.1 with
  | .ok h2 => .ok (h2, { g with livingRef := ar.2 }, ar.2)
  | .error e => .error e

theorem Heap.get_store_self (h : Heap) (r : Nat) (m : SparseMatrix) :
    (h.store r m).get r = m := by
  simp [Heap.get, Heap.store]

theorem Heap.get_store_other (h : Heap) (r : Nat) (m : SparseMatrix) (q : Nat)
    (hq : q ≠ r) : (h.store r m).get q = h.get q := by
  simp [Heap.get, Heap.store, hq]

theorem tickRef_fold (w hgt : Int) (old r : Nat) (M : SparseMatrix)
    (l : List (Int × Int))
    (hl : ∀ p ∈ l, 0 ≤ p.1 ∧ p.1 < w ∧ 0 ≤ p.2 ∧ p.2 < hgt)
    (hne : old ≠ r) :
    ∀ h1 : Heap, h1.get old = M →
      ∃ h2,
        (l.foldlM (fun hh p =>
            (setAlive (hh.get r) p.1 p.2
                (willLive w hgt (hh.get old) p.1 p.2)
                (some w) (some hgt)).map
              (fun m => hh.store r m)) h1 : Except String Heap) = .ok h2 ∧
        (∀ q, q ≠ r → h2.get q = h1.get q) ∧
        h2.fresh = h1.fresh ∧
        h2.get r = l.foldl
          (fun m p => matrixSet m p.1 p.2 (willLive w hgt M p.1 p.2)) (h1.get r) := by
  induction l with
  | nil => intro h1 _; exact ⟨h1, rfl, fun _ _ => rfl, rfl, rfl⟩
  | cons p rest ih =>
    intro h1 hM
    obtain ⟨h1c, h2c, h3c, h4c⟩ := hl p (List.mem_cons_self p rest)
    obtain ⟨h2, hfold, hother, hfresh, hr⟩ :=
      ih (fun q hq => hl q (List.mem_cons_of_mem p hq))
        (h1.store r (matrixSet (h1.get r) p.1 p.2 (willLive w hgt M p.1 p.2)))
        (by rw [Heap.get_store_other _ _ _ _ hne]; exact hM)
    refine ⟨h2, ?_, ?_, ?_, ?_⟩
    · rw [List.foldlM_cons, hM,
        setAlive_ok _ _ _ _ _ _ h1c h2c h3c h4c]
      simp only [Except.map, Bind.bind, Except.bind]
      exact hfold
    · intro q hq
      rw [hother q hq, Heap.get_store_other _ _ _ _ hq]
    · rw [hfresh]; rfl
    · rw [hr, Heap.get_store_self, List.foldl_cons]

/-- Claim C8: `tick()` never writes through the reference of the grid the
World held before the call: it allocates a fresh, distinct object,
performs the whole sweep through that fresh reference, and installs it;
the old object still holds the prior generation afterwards. -/
theorem tick_never_mutates_old_grid (h : Heap) (g : GameRef)
    (hvalid : g.livingRef < h.fresh) :
    ∃ h2 : Heap,
      tickRef h g = .ok (h2, { g with livingRef := h.fresh }, h.fresh) ∧
      h.fresh ≠ g.livingRef ∧
      h2.get g.livingRef = h.get g.livingRef ∧
      h2.get h.fresh =
        tickGrid { width := g.width, height := g.height,
                   living := h.get g.livingRef } := by
  have hne : g.livingRef ≠ h.fresh := by omega
  have halloc1 : ((h.alloc emptyMatrix).1).get g.livingRef = h.get g.livingRef := by
    unfold Heap.alloc Heap.get
    simp [hne]
  obtain ⟨h2, hfold, hother, hfresh, hr⟩ :=
    tickRef_fold g.width g.height g.livingRef (h.alloc emptyMatrix).2
      (h.get g.livingRef) (coordsList g.width g.height)
      (fun p hp => by
        obtain ⟨pa, pb⟩ := p
        exact (mem_coordsList g.width g.height pa pb).mp hp)
      hne ((h.alloc emptyMatrix).1) halloc1
  refine ⟨h2, ?_, fun hc => hne hc.symm, ?_, ?_⟩
  · unfold tickRef
    dsimp only
    rw [hfold]
    rfl
  · rw [hother g.livingRef hne, halloc1]
  · show h2.get (h.alloc emptyMatrix).2 = _
    rw [hr]
    have halloc2 : ((h.alloc emptyMatrix).1).get (h.alloc emptyMatrix).2
        = emptyMatrix := by
      unfold Heap.alloc Heap.get
      simp
    rw [halloc2]
    unfold tickGrid
    rfl

/-- Witness for claim C8 on a concrete one-object heap. -/
theorem tick_never_mutates_old_grid_check :
    (0 : Nat) < 1 ∧
    ∃ h2 : Heap,
      tickRef ⟨fun _ => emptyMatrix, 1⟩ ⟨1, 1, 0⟩ =
        .ok (h2, { (⟨1, 1, 0⟩ : GameRef) with livingRef := 1 }, 1) ∧
      (1 : Nat) ≠ 0 ∧
      h2.get 0 = Heap.get ⟨fun _ => emptyMatrix, 1⟩ 0 ∧
      h2.get 1 =
        tickGrid { width := 1, height := 1,
                   living := Heap.get ⟨fun _ => emptyMatrix, 1⟩ 0 } :=
  ⟨by decide, tick_never_mutates_old_grid ⟨fun _ => emptyMatrix, 1⟩ ⟨1, 1, 0⟩ (by decide)⟩

end GOL
